import Mathlib

/-!
Verification development for the schedule-extraction and conflict-resolution
pipeline of the sma-pla repository (Slack/LINE bot that extracts calendar
events from Japanese conversation text and registers them in Google Calendar).

Modeling conventions, used throughout:

* Timezone-aware datetimes (the code pins everything to Asia/Tokyo, a
  fixed-offset zone without DST) are modeled as `Int` minutes since the local
  epoch 1970-01-01T00:00.  `dateOf t` is the calendar day number (Python
  `dt.date()`), `hourOfDay t` the hour component (`dt.hour`), `minuteOfHour t`
  the minute component (`dt.minute`).  The `second`/`microsecond` components
  are below the granularity manipulated by the code paths modeled here.
  With this encoding Python's `//` and `%` agree with Lean's `/` and `%` on
  `Int` (both follow the floor convention for the positive divisors used
  here).
* Python dicts holding schedule information are modeled by the `Schedule`
  structure whose fields are `Option`-valued: `none` models a missing key,
  and falsiness tests such as `if not schedule_info.get(k)` are modeled
  explicitly (`strFalsy`).
* Python `float` confidence values are modeled as `ℚ`.  Every constant in the
  source is an exact decimal and no settled claim hinges on IEEE rounding.
* Wall-clock reads (`datetime.now(tz)`) become an explicit `now : Int`
  parameter; external collaborators (OpenAI chat completion, Google Calendar
  API, Slack) become explicit inputs, as the spec treats them (spec section
  6).
-/

namespace SmaPla

/-- Calendar day number of a timestamp, i.e. Python `dt.date()` for a datetime
modeled as minutes since the epoch. -/
def dateOf (t : Int) : Int := t / 1440

/-- Hour-of-day component of a timestamp, i.e. Python `dt.hour`. -/
def hourOfDay (t : Int) : Int := (t % 1440) / 60

/-- Minute-of-hour component of a timestamp, i.e. Python `dt.minute`. -/
def minuteOfHour (t : Int) : Int := t % 60

/-- The schedule-information dictionary produced by the extractors
(`title`, `start_datetime`, `end_datetime`, `location`, `description`,
`is_all_day`, `confidence` keys).  A `none` field models an absent key. -/
structure Schedule where
  title : Option String
  start_datetime : Option Int
  end_datetime : Option Int
  location : Option String
  description : Option String
  is_all_day : Option Bool
  confidence : Option ℚ
deriving DecidableEq

/-- The empty dict `{}` (all keys absent). -/
def emptySchedule : Schedule :=
  { title := none, start_datetime := none, end_datetime := none,
    location := none, description := none, is_all_day := none,
    confidence := none }

/-- Python falsiness of an optional string value: `not schedule_info.get(k)`
is true when the key is absent, `None`, or the empty string. -/
def strFalsy : Option String → Bool
  | none => true
  | some s => s == ""

/-! ## Backend pipeline validation: `ensure_valid_schedule`
(src/backend/src/utils/nlp_parser.py, lines 360-424).  The function is a
sequence of in-place fix-ups; each is modeled as one step below and
`ensure_valid_schedule` is their composition in source order. -/

/-- Lines 382-386: the next half-hour boundary after `now` (minute < 30 rolls
up to :30 of the same hour, otherwise to the top of the next hour; seconds and
microseconds are zeroed, which is implicit at minute granularity). -/
def nextHalfHour (now : Int) : Int :=
  if minuteOfHour now < 30 then (now / 60) * 60 + 30
  else ((now + 60) / 60) * 60

/-- Lines 382-392: the default start used when `start_datetime` is missing:
the next half-hour boundary, rolled to 10:00 of the day after `now` when its
hour falls outside 09:00-18:00. -/
def defaultStart (now : Int) : Int :=
  if hourOfDay (nextHalfHour now) < 9 ∨ 18 ≤ hourOfDay (nextHalfHour now) then
    (dateOf now + 1) * 1440 + 600
  else nextHalfHour now

/-- Lines 376-378: an empty/missing title is replaced by the placeholder
"予定". -/
def fixTitle (s : Schedule) : Schedule :=
  if strFalsy s.title then { s with title := some "予定" } else s

/-- Lines 380-394: a missing `start_datetime` defaults to `defaultStart`. -/
def fixStart (s : Schedule) (now : Int) : Schedule :=
  match s.start_datetime with
  | some _ => s
  | none => { s with start_datetime := some (defaultStart now) }

/-- Lines 396-398: a missing `end_datetime` (with `start_datetime` present)
defaults to one hour after the start. -/
def fixEnd (s : Schedule) : Schedule :=
  match s.end_datetime, s.start_datetime with
  | none, some st => { s with end_datetime := some (st + 60) }
  | _, _ => s

/-- Lines 400-413: a start in the past is pushed into the future.  Same
calendar date as `now`: shift start (and end, if present) forward by
`max 1 (now.hour - start.hour + 1)` hours.  Earlier date: shift both forward
by `(now.date() - start.date()).days + 1` days. -/
def fixPast (s : Schedule) (now : Int) : Schedule :=
  match s.start_datetime with
  | none => s
  | some st =>
    if st < now then
      if dateOf st = dateOf now then
        let adjustment := max 1 (hourOfDay now - hourOfDay st + 1)
        { s with start_datetime := some (st + adjustment * 60),
                 end_datetime := s.end_datetime.map (· + adjustment * 60) }
      else
        let days_diff := (dateOf now - dateOf st) + 1
        { s with start_datetime := some (st + days_diff * 1440),
                 end_datetime := s.end_datetime.map (· + days_diff * 1440) }
    else s

/-- Lines 415-418: for a non-all-day schedule with `start >= end`, the end is
reset to one hour after the start. -/
def fixOrder (s : Schedule) : Schedule :=
  if s.is_all_day.getD false then s
  else
    match s.start_datetime, s.end_datetime with
    | some st, some en =>
      if en ≤ st then { s with end_datetime := some (st + 60) } else s
    | _, _ => s

/-- Lines 420-422: a description longer than 1000 characters is truncated to
997 characters plus an ellipsis marker. -/
def fixDescription (s : Schedule) : Schedule :=
  match s.description with
  | some d =>
    if 1000 < d.length then { s with description := some (d.take 997 ++ "...") }
    else s
  | none => s

/-- The backend validation step `ensure_valid_schedule(schedule_info)`
(src/backend/src/utils/nlp_parser.py, lines 360-424), with the wall-clock
read `datetime.now(tz)` made explicit as `now`.  The leading
`if not schedule_info: schedule_info = {}` is the identity in this model. -/
def ensure_valid_schedule (s : Schedule) (now : Int) : Schedule :=
  fixDescription (fixOrder (fixPast (fixEnd (fixStart (fixTitle s) now)) now))

/-! Helper lemmas tracking each fix-up step, used for claims C1 and C9. -/

theorem nextHalfHour_gt (now : Int) : now < nextHalfHour now := by
  unfold nextHalfHour minuteOfHour
  split <;> omega

theorem defaultStart_gt (now : Int) : now < defaultStart now := by
  unfold defaultStart
  split
  · unfold dateOf; omega
  · exact nextHalfHour_gt now

theorem fixStart_some (s : Schedule) (now : Int) :
    ∃ st, (fixStart s now).start_datetime = some st ∧ (s.start_datetime = some st ∨ now < st) := by
  rcases h : s.start_datetime with _ | st0
  · exact ⟨defaultStart now, by simp [fixStart, h], Or.inr (defaultStart_gt now)⟩
  · exact ⟨st0, by simp [fixStart, h], Or.inl rfl⟩

theorem fixStart_end (s : Schedule) (now : Int) :
    (fixStart s now).end_datetime = s.end_datetime := by
  unfold fixStart; split <;> rfl

theorem fixEnd_start (s : Schedule) :
    (fixEnd s).start_datetime = s.start_datetime := by
  unfold fixEnd; split <;> rfl

theorem fixEnd_some (s : Schedule) (st : Int)
    (h : s.start_datetime = some st) : ∃ en, (fixEnd s).end_datetime = some en := by
  rcases he : s.end_datetime with _ | en
  · exact ⟨st + 60, by simp [fixEnd, h, he]⟩
  · exact ⟨en, by simp [fixEnd, h, he]⟩

theorem fixPast_ge (s : Schedule) (now st : Int)
    (h : s.start_datetime = some st) :
    ∃ st2, (fixPast s now).start_datetime = some st2 ∧ now ≤ st2 := by
  by_cases hlt : st < now
  · by_cases hdate : dateOf st = dateOf now
    · refine ⟨st + max 1 (hourOfDay now - hourOfDay st + 1) * 60,
        by simp [fixPast, h, hlt, hdate], ?_⟩
      have h1 := le_max_left 1 (hourOfDay now - hourOfDay st + 1)
      have h2 := le_max_right 1 (hourOfDay now - hourOfDay st + 1)
      revert h1 h2
      generalize max 1 (hourOfDay now - hourOfDay st + 1) = M
      intro h1 h2
      simp only [dateOf, hourOfDay] at hdate h2 ⊢
      omega
    · refine ⟨st + ((dateOf now - dateOf st) + 1) * 1440,
        by simp [fixPast, h, hlt, hdate], ?_⟩
      simp only [dateOf] at hdate ⊢
      omega
  · exact ⟨st, by simp [fixPast, h, hlt], by omega⟩

theorem fixPast_end_some (s : Schedule) (now en : Int)
    (h : s.end_datetime = some en) :
    ∃ en2, (fixPast s now).end_datetime = some en2 := by
  rcases hs : s.start_datetime with _ | st
  · exact ⟨en, by simp [fixPast, hs, h]⟩
  · by_cases hlt : st < now
    · by_cases hdate : dateOf st = dateOf now
      · exact ⟨en + max 1 (hourOfDay now - hourOfDay st + 1) * 60,
          by simp [fixPast, hs, hlt, hdate, h]⟩
      · exact ⟨en + ((dateOf now - dateOf st) + 1) * 1440,
          by simp [fixPast, hs, hlt, hdate, h]⟩
    · exact ⟨en, by simp [fixPast, hs, hlt, h]⟩

theorem fixPast_allday (s : Schedule) (now : Int) :
    (fixPast s now).is_all_day = s.is_all_day := by
  unfold fixPast
  split
  · rfl
  · split
    · split <;> rfl
    · rfl

theorem fixOrder_start (s : Schedule) :
    (fixOrder s).start_datetime = s.start_datetime := by
  unfold fixOrder
  split
  · rfl
  · split
    · split <;> rfl
    · rfl

theorem fixOrder_allday (s : Schedule) :
    (fixOrder s).is_all_day = s.is_all_day := by
  unfold fixOrder
  split
  · rfl
  · split
    · split <;> rfl
    · rfl

theorem fixOrder_gt (s : Schedule) (st en : Int)
    (hs : s.start_datetime = some st) (he : s.end_datetime = some en)
    (ha : s.is_all_day.getD false = false) :
    ∃ en2, (fixOrder s).end_datetime = some en2 ∧ st < en2 := by
  by_cases hle : en ≤ st
  · exact ⟨st + 60, by simp [fixOrder, hs, he, ha, hle], by omega⟩
  · exact ⟨en, by simp [fixOrder, hs, he, ha, hle], by omega⟩

theorem fixOrder_id_allday (s : Schedule)
    (ha : s.is_all_day.getD false = true) : fixOrder s = s := by
  simp [fixOrder, ha]

theorem fixDescription_start (s : Schedule) :
    (fixDescription s).start_datetime = s.start_datetime := by
  unfold fixDescription
  split
  · split <;> rfl
  · rfl

theorem fixDescription_end (s : Schedule) :
    (fixDescription s).end_datetime = s.end_datetime := by
  unfold fixDescription
  split
  · split <;> rfl
  · rfl

theorem fixDescription_allday (s : Schedule) :
    (fixDescription s).is_all_day = s.is_all_day := by
  unfold fixDescription
  split
  · split <;> rfl
  · rfl

/-- Claim C1, counterexample.  An all-day candidate whose end equals its start
is returned by `ensure_valid_schedule` completely unchanged (the
`start >= end` fix-up is skipped for all-day schedules, and no step of
`ensure_valid_schedule` establishes `end == start + 1 day`), so the claimed
all-day invariant `end_datetime = start_datetime + one day` fails at this
input, as does `end_datetime > start_datetime`.  Input: title "合宿",
start = end = day 1 at 00:00 (minute 1440), all-day, validated at `now` = 0. -/
theorem C1_counterexample :
    (ensure_valid_schedule
        { title := some "合宿", start_datetime := some 1440,
          end_datetime := some 1440, location := none, description := none,
          is_all_day := some true, confidence := some 1 } 0) =
      { title := some "合宿", start_datetime := some 1440,
        end_datetime := some 1440, location := none, description := none,
        is_all_day := some true, confidence := some 1 } ∧
    ¬ ((1440 : Int) + 1440 = 1440 ∨ (1440 : Int) < 1440) := by
  constructor
  · decide
  · decide

/-- Claim C1, amended.  For every input candidate and validation time `now`,
the candidate returned by `ensure_valid_schedule` has a present start with
`start_datetime >= now` and a present end, and when the candidate is not
all-day, `end_datetime > start_datetime`.  The original claim's all-day
clause (`end == start + 1 day`) is not enforced by `ensure_valid_schedule`
(that normalization lives in the separate function `validate_schedule_info`,
which is not part of the `parse_schedule_from_text` validation step), per the
counterexample. -/
theorem C1_amended (s : Schedule) (now : Int) :
    ∃ st en,
      (ensure_valid_schedule s now).start_datetime = some st ∧
      (ensure_valid_schedule s now).end_datetime = some en ∧
      now ≤ st ∧
      ((ensure_valid_schedule s now).is_all_day.getD false = false → st < en) := by
  unfold ensure_valid_schedule
  obtain ⟨st1, hst1, -⟩ := fixStart_some (fixTitle s) now
  obtain ⟨en1, hen1⟩ := fixEnd_some (fixStart (fixTitle s) now) st1 hst1
  have hst1' : (fixEnd (fixStart (fixTitle s) now)).start_datetime = some st1 := by
    rw [fixEnd_start]; exact hst1
  obtain ⟨st2, hst2, hge2⟩ := fixPast_ge (fixEnd (fixStart (fixTitle s) now)) now st1 hst1'
  obtain ⟨en2, hen2⟩ := fixPast_end_some (fixEnd (fixStart (fixTitle s) now)) now en1 hen1
  by_cases hall :
      (fixPast (fixEnd (fixStart (fixTitle s) now)) now).is_all_day.getD false = false
  · obtain ⟨en3, hen3, hlt3⟩ :=
      fixOrder_gt (fixPast (fixEnd (fixStart (fixTitle s) now)) now) st2 en2 hst2 hen2 hall
    refine ⟨st2, en3, ?_, ?_, hge2, fun _ => hlt3⟩
    · rw [fixDescription_start, fixOrder_start]; exact hst2
    · rw [fixDescription_end]; exact hen3
  · have hall' :
        (fixPast (fixEnd (fixStart (fixTitle s) now)) now).is_all_day.getD false = true := by
      revert hall
      cases (fixPast (fixEnd (fixStart (fixTitle s) now)) now).is_all_day.getD false <;> simp
    have hord := fixOrder_id_allday _ hall'
    refine ⟨st2, en2, ?_, ?_, hge2, fun hcon => ?_⟩
    · rw [fixDescription_start, hord]; exact hst2
    · rw [fixDescription_end, hord]; exact hen2
    · rw [fixDescription_allday, hord] at hcon
      exact absurd hcon hall

/-- Claim C9.  For a fixed validation time `now`, `ensure_valid_schedule` is
the identity on any candidate that already satisfies the invariants (non-empty
title, start present and not before `now`, end present and after the start,
description absent or at most 1000 characters); hence applying it twice equals
applying it once. -/
theorem C9_idempotent (s : Schedule) (now : Int) (t : String) (st en : Int)
    (ht : s.title = some t) (ht2 : ¬ t = "")
    (hs : s.start_datetime = some st) (hsn : now ≤ st)
    (he : s.end_datetime = some en) (hse : st < en)
    (hd : ∀ d, s.description = some d → d.length ≤ 1000) :
    ensure_valid_schedule s now = s ∧
    ensure_valid_schedule (ensure_valid_schedule s now) now =
      ensure_valid_schedule s now := by
  have h1 : fixTitle s = s := by
    unfold fixTitle
    rw [ht]
    simp [strFalsy, ht2]
  have h2 : fixStart s now = s := by
    unfold fixStart; rw [hs]
  have h3 : fixEnd s = s := by
    unfold fixEnd; rw [he, hs]
  have h4 : fixPast s now = s := by
    unfold fixPast
    rw [hs]
    dsimp only
    rw [if_neg (by omega)]
  have h5 : fixOrder s = s := by
    unfold fixOrder
    split
    · rfl
    · rw [hs, he]
      dsimp only
      rw [if_neg (by omega)]
  have h6 : fixDescription s = s := by
    unfold fixDescription
    split
    · next d hdd =>
        rw [if_neg (by have := hd d hdd; omega)]
    · rfl
  have hfix : ensure_valid_schedule s now = s := by
    unfold ensure_valid_schedule
    rw [h1, h2, h3, h4, h5, h6]
  exact ⟨hfix, by rw [hfix, hfix]⟩

/-- Claim C9, witness: a concrete already-valid candidate (title "会議",
10:00-11:00 on day 0, validated at midnight) is a fixed point of
`ensure_valid_schedule`. -/
theorem C9_idempotent_witness :
    ensure_valid_schedule
        { title := some "会議", start_datetime := some 600,
          end_datetime := some 660, location := some "",
          description := none, is_all_day := some false,
          confidence := some 1 } 0 =
      { title := some "会議", start_datetime := some 600,
        end_datetime := some 660, location := some "",
        description := none, is_all_day := some false,
        confidence := some 1 } :=
  (C9_idempotent _ 0 "会議" 600 660 rfl (by decide) rfl (by decide) rfl
    (by decide) (fun d hd => Option.noConfusion hd)).1

/-! ## Generic string helpers
Texts are processed as `List Char`; `String.length` and Python `len` both
count code points.  Python regex/`in` operations on the source's patterns are
compiled by hand into these executable matchers. -/

/-- Whether `pat` is a prefix of `cs`. -/
def startsWithL : List Char → List Char → Bool
  | [], _ => true
  | _ :: _, [] => false
  | p :: ps, c :: cs => p == c && startsWithL ps cs

/-- Whether `pat` occurs as a contiguous substring of the text, i.e. Python
`pat in text` (also `re.search` for a pattern that is a literal). -/
def containsL (pat : List Char) : List Char → Bool
  | [] => startsWithL pat []
  | cs@(_ :: rest) => startsWithL pat cs || containsL pat rest

/-- String-level wrapper for `containsL`. -/
def containsStr (needle hay : String) : Bool := containsL needle.toList hay.toList

/-! ## Civil calendar arithmetic
Python `datetime` understands Gregorian year/month/day; the minutes-based
model recovers them with the standard `days_from_civil` / `civil_from_days`
algorithms (exact for the nonnegative day numbers used by the code). -/

/-- Day number of the Gregorian date `y-m-d` (epoch 1970-01-01 = day 0). -/
def daysFromCivil (y m d : Int) : Int :=
  let y2 := if m ≤ 2 then y - 1 else y
  let era := (if 0 ≤ y2 then y2 else y2 - 399) / 400
  let yoe := y2 - era * 400
  let mp := (m + 9) % 12
  let doy := (153 * mp + 2) / 5 + d - 1
  let doe := yoe * 365 + yoe / 4 - yoe / 100 + doy
  era * 146097 + doe - 719468

/-- Gregorian date `(y, m, d)` of a day number. -/
def civilFromDays (z0 : Int) : Int × Int × Int :=
  let z := z0 + 719468
  let era := (if 0 ≤ z then z else z - 146096) / 146097
  let doe := z - era * 146097
  let yoe := (doe - doe / 1460 + doe / 36524 - doe / 146096) / 365
  let y := yoe + era * 400
  let doy := doe - (365 * yoe + yoe / 4 - yoe / 100)
  let mp := (5 * doy + 2) / 153
  let d := doy - (153 * mp + 2) / 5 + 1
  let m := mp + (if mp < 10 then 3 else -9)
  (if m ≤ 2 then y + 1 else y, m, d)

/-- Python `dt.year`. -/
def yearOf (t : Int) : Int := (civilFromDays (dateOf t)).1

/-- Python `dt.replace(year=y)` at minute granularity.  (Python raises
`ValueError` for Feb 29 replaced into a non-leap year; that corner is outside
every settled claim and the model is total there.) -/
def replaceYear (t y : Int) : Int :=
  let c := civilFromDays (dateOf t)
  daysFromCivil y c.2.1 c.2.2 * 1440 + t % 1440

/-! ## Backend LLM extraction path
(src/backend/src/utils/nlp_parser.py).  The OpenAI chat response is an
external collaborator; its JSON payload is modeled by `LLMRaw`.  String
fields that the code feeds to `strptime` are modeled pre-parsed by
`JStrField`: `missing` is an absent/empty (falsy) value, `invalid` a
present-but-unparseable string, `valid v` a well-formed one (`v` a day
number for `date`, minutes after midnight for `start_time`/`end_time`). -/

/-- State of a JSON string field that the code parses with `strptime`. -/
inductive JStrField where
  | missing
  | invalid
  | valid (v : Int)
deriving DecidableEq

/-- The JSON object returned by the OpenAI chat completion (prompt contract
of `analyze_conversation_with_openai`). -/
structure LLMRaw where
  title : Option String
  date : JStrField
  start_time : JStrField
  end_time : JStrField
  location : Option String
  description : Option String
  all_day : Bool
  participants : List String
  confidence : Option ℚ
deriving DecidableEq

/-- Duration-keyword test in `convert_openai_result_to_schedule`
(lines 275-286): `any(kw in title.lower() or kw in description.lower() ...)`. -/
def keywordHit (kws : List String) (tl dl : String) : Bool :=
  kws.any (fun k => containsStr k tl || containsStr k dl)

/-- Conversion `convert_openai_result_to_schedule(result)`
(src/backend/src/utils/nlp_parser.py, lines 196-326), wall clock explicit.
The `except` fallback (lines 313-326) is unreachable in this model because
the string-parsing failures are already represented by `JStrField`. -/
def convert_openai_result_to_schedule (r : LLMRaw) (now : Int) : Schedule :=
  let date_obj : Int :=
    match r.date with
    | .valid d => d
    | _ => dateOf now + 1
  let start_dt : Int :=
    match r.start_time with
    | .valid t => date_obj * 1440 + t
    | .invalid => date_obj * 1440 + 600
    | .missing => if r.all_day then date_obj * 1440 else date_obj * 1440 + 600
  let end_dt : Int :=
    match r.end_time with
    | .valid t =>
      if date_obj * 1440 + t ≤ start_dt then date_obj * 1440 + t + 1440
      else date_obj * 1440 + t
    | .invalid => start_dt + 60
    | .missing =>
      if r.all_day then start_dt + 1440
      else
        let tl := (r.title.getD "").toLower
        let dl := (r.description.getD "").toLower
        if keywordHit ["会議", "ミーティング", "mtg", "meeting", "打ち合わせ"] tl dl then
          start_dt + 60
        else if keywordHit ["ランチ", "昼食", "lunch", "食事", "飲み会", "dinner"] tl dl then
          start_dt + 90
        else if keywordHit ["セミナー", "研修", "workshop", "ワークショップ", "講習"] tl dl then
          start_dt + 180
        else start_dt + 60
  let desc0 := r.description.getD ""
  let desc :=
    if r.participants.isEmpty then desc0
    else if desc0 == "" then "参加者: " ++ String.intercalate ", " r.participants
    else desc0 ++ "\n\n参加者: " ++ String.intercalate ", " r.participants
  { title := some (r.title.getD "予定"),
    start_datetime := some start_dt,
    end_datetime := some end_dt,
    location := some (r.location.getD ""),
    description := some desc,
    is_all_day := some r.all_day,
    confidence := some (r.confidence.getD (7/10)) }

/-- Validation `validate_schedule_info(schedule_info)`
(src/backend/src/utils/nlp_parser.py, lines 426-478), wall clock explicit. -/
def validate_schedule_info (s0 : Schedule) (now : Int) : Schedule :=
  let s1 := if strFalsy s0.title then { s0 with title := some "予定" } else s0
  let s2 :=
    match s1.start_datetime with
    | some st =>
      if st < now then
        let days_to_add : Int :=
          if dateOf st = dateOf now then 1
          else
            let dta := dateOf (replaceYear st (yearOf now + 1)) - dateOf now
            if dta < 0 then 1 else dta
        { s1 with start_datetime := some (st + days_to_add * 1440),
                  end_datetime := s1.end_datetime.map (· + days_to_add * 1440) }
      else s1
    | none => s1
  let s3 :=
    match s2.start_datetime, s2.end_datetime with
    | some st, some en =>
      if ¬ (s2.is_all_day.getD false) ∧ en ≤ st then
        { s2 with end_datetime := some (st + 60) }
      else s2
    | _, _ => s2
  if s3.is_all_day.getD false then
    match s3.start_datetime with
    | some st =>
      { s3 with start_datetime := some (dateOf st * 1440),
                end_datetime := some (dateOf st * 1440 + 1440) }
    | none => s3
  else s3

/-- Minimal validity check `is_valid_schedule_info(schedule_info)`
(src/backend/src/utils/nlp_parser.py, lines 328-358). -/
def is_valid_schedule_info (s : Schedule) : Bool :=
  if s = emptySchedule then false
  else if strFalsy s.title then false
  else if s.start_datetime = none then false
  else if s.end_datetime = none then false
  else
    match s.start_datetime, s.end_datetime with
    | some st, some en => if ¬ (s.is_all_day.getD false) ∧ en ≤ st then false else true
    | _, _ => true

/-- Count of missing required fields (`title`, `date`, `start_time`) in the
model response (lines 167-173). -/
def missingFieldCount (r : LLMRaw) : Nat :=
  (if strFalsy r.title then 1 else 0) +
  (if r.date = JStrField.missing then 1 else 0) +
  (if r.start_time = JStrField.missing then 1 else 0)

/-- Confidence after the missing-field penalty (lines 165-178):
`max(0.1, confidence - 0.3 * len(missing_fields))` when fields are missing. -/
def analyzeConfidence (r : LLMRaw) : ℚ :=
  if missingFieldCount r ≠ 0 then
    max (1/10) (r.confidence.getD 0 - 3/10 * (missingFieldCount r : ℚ))
  else r.confidence.getD 0

/-- Post-processing of the OpenAI response in
`analyze_conversation_with_openai` (src/backend/src/utils/nlp_parser.py,
lines 160-190): a response whose adjusted confidence is below 0.4 yields the
empty dict, otherwise the converted and validated schedule.  The API call
itself (and its exception path, which yields `({}, 0.0)` and hence behaves
like a sub-0.4 response downstream) is the external input `r`. -/
def analyze_conversation_with_openai (r : LLMRaw) (now : Int) : Schedule × ℚ :=
  if analyzeConfidence r < 4/10 then (emptySchedule, analyzeConfidence r)
  else (validate_schedule_info (convert_openai_result_to_schedule r now) now,
        analyzeConfidence r)

/-- Dispatch `parse_schedule_from_text(text)` of the backend
(src/backend/src/utils/nlp_parser.py, lines 42-76).  The OpenAI availability
check and the rule-based fallback result are explicit inputs: `llm = none`
models an unconfigured/failing OpenAI client, and `ruleBasedResult` is the
value of `rule_based_parser(text, timezone)` (line 76). -/
def parse_schedule_from_text (llm : Option LLMRaw) (ruleBasedResult : Schedule)
    (now : Int) : Schedule :=
  match llm with
  | none => ruleBasedResult
  | some r =>
    if 4/10 ≤ (analyze_conversation_with_openai r now).2 then
      ensure_valid_schedule (analyze_conversation_with_openai r now).1 now
    else if 3/10 ≤ (analyze_conversation_with_openai r now).2 ∧
        is_valid_schedule_info (analyze_conversation_with_openai r now).1 then
      (analyze_conversation_with_openai r now).1
    else ruleBasedResult

/-- A fully populated, structurally valid LLM response reporting confidence
0.39 (used to settle claim C2). -/
def exLLMRaw : LLMRaw :=
  { title := some "企画会議", date := JStrField.valid 20528,
    start_time := JStrField.valid 600, end_time := JStrField.valid 660,
    location := some "本社", description := some "", all_day := false,
    participants := [], confidence := some (39/100) }

/-- A concrete stand-in for the rule-based fallback result, distinguishable
from the empty dict. -/
def exFallback : Schedule :=
  { title := some "予定", start_datetime := some 2040,
    end_datetime := some 2100, location := none,
    description := some "了解です", is_all_day := none, confidence := some 0 }

/-- Claim C2, counterexample.  A structurally valid LLM response reporting
confidence 0.39 (between the secondary threshold 0.3 and 0.4) is never
accepted: `analyze_conversation_with_openai` already returns the empty dict
for any confidence below 0.4 (line 181), the empty dict fails
`is_valid_schedule_info`, and `parse_schedule_from_text` therefore falls
through to the rule-based extractor instead of returning the candidate
as-is. -/
theorem C2_counterexample :
    (analyze_conversation_with_openai exLLMRaw 0).1 = emptySchedule ∧
    (analyze_conversation_with_openai exLLMRaw 0).2 = 39/100 ∧
    is_valid_schedule_info (analyze_conversation_with_openai exLLMRaw 0).1 = false ∧
    parse_schedule_from_text (some exLLMRaw) exFallback 0 = exFallback ∧
    exFallback ≠ emptySchedule := by
  have hconf : analyzeConfidence exLLMRaw = 39/100 := rfl
  have hlt : analyzeConfidence exLLMRaw < 4/10 := by rw [hconf]; norm_num
  have h1 : analyze_conversation_with_openai exLLMRaw 0 =
      (emptySchedule, analyzeConfidence exLLMRaw) := by
    unfold analyze_conversation_with_openai
    rw [if_pos hlt]
  have hv : is_valid_schedule_info emptySchedule = false := by decide
  refine ⟨by rw [h1], by rw [h1]; exact hconf, by rw [h1]; exact hv, ?_, by decide⟩
  unfold parse_schedule_from_text
  dsimp only
  rw [if_neg (by rw [h1, hconf]; norm_num), if_neg ?_]
  rintro ⟨-, hb⟩
  rw [h1] at hb
  rw [hv] at hb
  cases hb

/-- Claim C2, amended.  Whenever the adjusted LLM confidence is below 0.4,
`analyze_conversation_with_openai` returns the empty candidate, which fails
the minimal validity check, so the secondary `confidence >= 0.3` branch of
`parse_schedule_from_text` can never fire and the pipeline falls through to
the rule-based extractor.  In particular a reported confidence of 0.39 is
not accepted via the secondary threshold. -/
theorem C2_amended (r : LLMRaw) (rb : Schedule) (now : Int)
    (h : (analyze_conversation_with_openai r now).2 < 4/10) :
    (analyze_conversation_with_openai r now).1 = emptySchedule ∧
    parse_schedule_from_text (some r) rb now = rb := by
  have hc : analyzeConfidence r < 4/10 := by
    unfold analyze_conversation_with_openai at h
    by_cases hcc : analyzeConfidence r < 4/10
    · exact hcc
    · rw [if_neg hcc] at h
      exact h
  have h1 : (analyze_conversation_with_openai r now).1 = emptySchedule := by
    unfold analyze_conversation_with_openai
    rw [if_pos hc]
  refine ⟨h1, ?_⟩
  unfold parse_schedule_from_text
  dsimp only
  rw [if_neg (by exact fun hle => absurd h (not_lt.mpr hle)), if_neg ?_]
  rintro ⟨-, hb⟩
  rw [h1] at hb
  exact absurd hb (by decide)

/-- Claim C2, witness: the amended theorem applied to the concrete 0.39
response. -/
theorem C2_amended_witness :
    (analyze_conversation_with_openai exLLMRaw 0).1 = emptySchedule ∧
    parse_schedule_from_text (some exLLMRaw) exFallback 0 = exFallback :=
  C2_amended exLLMRaw exFallback 0
    (by have hconf : analyzeConfidence exLLMRaw = 39/100 := rfl
        show (if analyzeConfidence exLLMRaw < 4/10 then
            (emptySchedule, analyzeConfidence exLLMRaw)
          else (validate_schedule_info
            (convert_openai_result_to_schedule exLLMRaw 0) 0,
            analyzeConfidence exLLMRaw)).2 < 4/10
        rw [if_pos (by rw [hconf]; norm_num), hconf]
        norm_num)

/-! ## Top-level rule-based extractor
(src/utils/nlp_parser.py, `rule_based_parser`, lines 123-343).  Each Python
regex is compiled by hand into an executable matcher over `List Char` whose
doc comment names the regex; `re.search` semantics (leftmost start, lazy
`(.+?)` groups never crossing a newline, ordered alternation, greedy optional
pieces with backtracking) are reproduced by the scan structure.  `\d` is
modeled as the ASCII digits the texts of interest use. -/

/-- Python `str.strip()` (leading/trailing whitespace removed). -/
def stripWS (l : List Char) : List Char :=
  ((l.dropWhile Char.isWhitespace).reverse.dropWhile Char.isWhitespace).reverse

/-- Worker for `splitWS`, accumulating the current word reversed. -/
def splitWSGo : List Char → List Char → List (List Char)
  | [], acc => if acc.isEmpty then [] else [acc.reverse]
  | c :: rest, acc =>
    if c.isWhitespace then
      if acc.isEmpty then splitWSGo rest []
      else acc.reverse :: splitWSGo rest []
    else splitWSGo rest (c :: acc)

/-- Python `str.split()` with no argument: split on whitespace runs,
discarding empty pieces. -/
def splitWS (cs : List Char) : List (List Char) := splitWSGo cs []

/-- Lazy-group worker: having consumed the reversed `acc` (at least one
character), stop as soon as `check` accepts the remaining text, fail on a
newline (Python `.` does not match `\n`). -/
def lazyGroupGo (check : List Char → Bool) : List Char → List Char → Option (List Char)
  | acc, [] => if check [] then some acc.reverse else none
  | acc, c :: rs =>
    if check (c :: rs) then some acc.reverse
    else if c = '\n' then none else lazyGroupGo check (c :: acc) rs

/-- Shortest nonempty newline-free prefix of `cs` after which `check` holds:
the semantics of a lazy group `(.+?)` followed by the pattern `check`
recognizes, anchored at the current position. -/
def lazyGroupBy (check : List Char → Bool) : List Char → Option (List Char)
  | [] => none
  | c :: rs => if c = '\n' then none else lazyGroupGo check [c] rs

/-- Search for `PRE(.+?)POST`-style regexes: leftmost occurrence of the
literal `pre`, then a lazy group up to the point where `check` (the compiled
`POST`) holds; on failure the scan resumes one character later, as
`re.search` does. -/
def searchPreLazyBy (pre : List Char) (check : List Char → Bool) :
    List Char → Option (List Char)
  | [] => none
  | cs@(_ :: rest) =>
    if startsWithL pre cs then
      match lazyGroupBy check (cs.drop pre.length) with
      | some g => some g
      | none => searchPreLazyBy pre check rest
    else searchPreLazyBy pre check rest

/-- Search for `(.+?)POST`-style regexes (leading lazy group): leftmost start
position admitting a lazy group after which `check` holds. -/
def searchLazyBy (check : List Char → Bool) : List Char → Option (List Char)
  | [] => none
  | cs@(_ :: rest) =>
    match lazyGroupBy check cs with
    | some g => some g
    | none => searchLazyBy check rest

/-- Whether one of the literals matches at the current position — an ordered
alternation `(?:a|b|...)` used as a boolean test (order is irrelevant for the
tests below because no two alternatives can both match and then diverge). -/
def firstLitAt (lits : List String) (rem : List Char) : Bool :=
  lits.any (fun l => startsWithL l.toList rem)

/-- Test for `(?:MID...)(?:POST...)` at the current position: some `mid`
matches and some `post` matches immediately after it. -/
def midPostCheck (mids posts : List String) (rem : List Char) : Bool :=
  mids.any (fun m => startsWithL m.toList rem && firstLitAt posts (rem.drop m.toList.length))

/-- Trailing alternation of title pattern 5: `(します|する|やる|行う)`. -/
def p5Check (rem : List Char) : Bool := firstLitAt ["します", "する", "やる", "行う"] rem

/-- Title pattern 5,
`(?:ミーティング|会議|打ち合わせ|MTG)(?:を|は)?(.+?)(します|する|やる|行う)`:
a meeting keyword, a greedy optional particle (tried consumed first, then
skipped), then the lazy group up to `p5Check`. -/
def searchTitleP5 : List Char → Option (List Char)
  | [] => none
  | cs@(_ :: rest) =>
    match ["ミーティング", "会議", "打ち合わせ", "MTG"].find?
        (fun k => startsWithL k.toList cs) with
    | some kw =>
      let afterKw := cs.drop kw.toList.length
      let attempt :=
        match afterKw with
        | c :: r2 =>
          if c = 'を' ∨ c = 'は' then
            (lazyGroupBy p5Check r2).orElse (fun _ => lazyGroupBy p5Check afterKw)
          else lazyGroupBy p5Check afterKw
        | [] => none
      match attempt with
      | some g => some g
      | none => searchTitleP5 rest
    | none => searchTitleP5 rest

/-- The six title regexes of lines 148-155, tried in order (first match
wins), returning group 1. -/
def titleRegexSearch (cs : List Char) : Option (List Char) :=
  (searchPreLazyBy "「".toList (startsWithL "」".toList) cs).orElse fun _ =>
  (searchPreLazyBy "『".toList (startsWithL "』".toList) cs).orElse fun _ =>
  (searchPreLazyBy "について".toList (startsWithL "する".toList) cs).orElse fun _ =>
  (searchLazyBy (midPostCheck ["について", "を"] ["予定", "設定", "入れ"]) cs).orElse fun _ =>
  (searchTitleP5 cs).orElse fun _ =>
  searchLazyBy (midPostCheck ["の", "に関する"] ["ミーティング", "会議", "打ち合わせ", "MTG"]) cs

/-- Keyword fallback vocabulary for titles (line 166). -/
def titleKeywords : List String :=
  ["ミーティング", "会議", "打ち合わせ", "MTG", "面談", "商談", "イベント", "発表"]

/-- Particles excluding a word from the potential-title fallback (line 177). -/
def titleParticles : List String := ["は", "が", "を", "に", "で", "と", "から", "まで", "より"]

/-- Regex stage of the title extraction (lines 157-162): a match sets the
title to the *stripped* group — which may be empty — and adds +0.2.  The
pair carries the title slot (`none` models the initial `None`) and the
accumulated confidence of the family. -/
def titleStep1 (text : String) : Option String × ℚ :=
  match titleRegexSearch text.toList with
  | some g => (some (String.mk (stripWS g)), 2/10)
  | none => (none, 0)

/-- Keyword stage of the title extraction (lines 164-171): it runs whenever
the title slot is still falsy — also after a regex match whose group
stripped to the empty string — and then adds a further +0.1. -/
def titleStep2 (text : String) : Option String × ℚ :=
  if strFalsy (titleStep1 text).1 then
    match titleKeywords.find? (fun k => containsL k.toList text.toList) with
    | some k => (some k, (titleStep1 text).2 + 1/10)
    | none => titleStep1 text
  else titleStep1 text

/-- Title extraction (lines 147-183) returning the final title and the
family's confidence contribution.  The three stages run sequentially, each
guarded by falsiness of the title slot, so a regex match whose group strips
to empty still falls through to the fallbacks and the increments stack
(at most +0.2 + 0.1). -/
def extractTitle (text : String) : String × ℚ :=
  if strFalsy (titleStep2 text).1 then
    match (splitWS text.toList).filter (fun w =>
        decide (2 ≤ w.length) && !(titleParticles.any (fun p => containsL p.toList w))) with
    | w :: _ => (String.mk w, (titleStep2 text).2 + 1/10)
    | [] => ("予定", (titleStep2 text).2)
  else ((titleStep2 text).1.getD "", (titleStep2 text).2)

/-! ## Date resolution helpers (src/utils/nlp_parser.py, lines 345-362,
shared verbatim with src/backend/src/utils/nlp_parser.py, lines 480-517). -/

/-- Python `date.weekday()` for a day number: day 0 = 1970-01-01 was a
Thursday, whose Python weekday code is 3 (Monday = 0). -/
def weekdayOf (d : Int) : Int := (d + 3) % 7

/-- The helper `next_weekday(now, weekday, weeks_offset=0)`
(src/utils/nlp_parser.py, lines 345-352): the next date falling on the given
weekday code, strictly after today, plus `weeks_offset` whole weeks. -/
def next_weekday (now : Int) (weekday : Int) (weeks_offset : Int) : Int :=
  let days_ahead := weekday - weekdayOf (dateOf now)
  let days_ahead2 := if days_ahead ≤ 0 then days_ahead + 7 else days_ahead
  dateOf now + (days_ahead2 + 7 * weeks_offset)

/-- The helper `date_from_month_day(now, month, day)`
(src/utils/nlp_parser.py, lines 354-362): year defaults to the current year
and rolls to the next one when the month/day already passed. -/
def date_from_month_day (now : Int) (month day : Int) : Int :=
  let c := civilFromDays (dateOf now)
  let year := if month < c.2.1 ∨ (month = c.2.1 ∧ day < c.2.2) then c.1 + 1 else c.1
  daysFromCivil year month day

/-- WEEKDAY_MAP (line 11): the weekday code of a kanji weekday character. -/
def weekdayCharCode (c : Char) : Option Int :=
  if c == '月' then some 0 else if c == '火' then some 1
  else if c == '水' then some 2 else if c == '木' then some 3
  else if c == '金' then some 4 else if c == '土' then some 5
  else if c == '日' then some 6 else none

/-- Suffix `([月火水木金土日])曜` of the weekday patterns. -/
def weekdayThenYo : List Char → Option Int
  | c :: '曜' :: _ => weekdayCharCode c
  | _ => none

/-- Optional-`の` part of `今週の?([月火水木金土日])曜` (greedy: the `の` is
consumed first, skipped on failure). -/
def weekPatAt (after : List Char) : Option Int :=
  match after with
  | 'の' :: r2 => (weekdayThenYo r2).orElse (fun _ => weekdayThenYo after)
  | _ => weekdayThenYo after

/-- Search for `PREの?([月火水木金土日])曜` (lines 193-194), returning the
weekday code of group 1. -/
def searchWeekPat (pre : List Char) : List Char → Option Int
  | [] => none
  | cs@(_ :: rest) =>
    if startsWithL pre cs then
      match weekPatAt (cs.drop pre.length) with
      | some w => some w
      | none => searchWeekPat pre rest
    else searchWeekPat pre rest

/-- Maximal ASCII digit run at the head of the text, with the rest. -/
def digitRun : List Char → List Char × List Char
  | [] => ([], [])
  | c :: rs =>
    if c.isDigit then
      let p := digitRun rs
      (c :: p.1, p.2)
    else ([], c :: rs)

/-- Numeric value of a digit run. -/
def digitsToInt (ds : List Char) : Int :=
  ds.foldl (fun a c => a * 10 + ((c.toNat : Int) - 48)) 0

/-- Search for `(\d+)月(\d+)日` (line 197): a maximal digit run directly
followed by 月, digits, 日 (greedy `\d+` immediately followed by a
non-digit literal needs no backtracking). -/
def searchMonthDay : List Char → Option (Int × Int)
  | [] => none
  | cs@(c :: rest) =>
    if c.isDigit then
      match (digitRun cs).2 with
      | '月' :: r2 =>
        match digitRun r2 with
        | ([], _) => searchMonthDay rest
        | (ds, after2) =>
          match after2 with
          | '日' :: _ => some (digitsToInt (digitRun cs).1, digitsToInt ds)
          | _ => searchMonthDay rest
      | _ => searchMonthDay rest
    else searchMonthDay rest

/-- Day part `(\d{1,2})` with no trailing constraint: greedily take two
digits, else one. -/
def dayDigits : List Char → Option Int
  | a :: b :: _ =>
    if a.isDigit then
      if b.isDigit then some (digitsToInt [a, b]) else some (digitsToInt [a])
    else none
  | [a] => if a.isDigit then some (digitsToInt [a]) else none
  | [] => none

/-- Anchored match of `(\d{1,2})/(\d{1,2})` (greedy two-digit month tried
first, then one digit; Python backtracking collapses to these two cases
because a digit can never equal `/`). -/
def slashAt : List Char → Option (Int × Int)
  | a :: b :: '/' :: r2 =>
    if a.isDigit then
      if b.isDigit then (dayDigits r2).map (fun d => (digitsToInt [a, b], d))
      else none
    else none
  | a :: '/' :: r2 =>
    if a.isDigit then (dayDigits r2).map (fun d => (digitsToInt [a], d)) else none
  | _ => none

/-- Search for `(\d{1,2})/(\d{1,2})` (line 200). -/
def searchSlashDate : List Char → Option (Int × Int)
  | [] => none
  | cs@(_ :: rest) =>
    match slashAt cs with
    | some md => some md
    | none => searchSlashDate rest

/-- Date extraction (lines 185-212): the ordered pattern list 明日, 明後日,
今日/本日, 今週の?X曜, 来週の?X曜, M月D日, M/D; first match wins, each worth
+0.3.  Returns the resolved day number (or `none`: no date in the text). -/
def extractDate (text : String) (now : Int) : Option Int × ℚ :=
  let cs := text.toList
  if containsL "明日".toList cs then (some (dateOf now + 1), 3/10)
  else if containsL "明後日".toList cs then (some (dateOf now + 2), 3/10)
  else if containsL "今日".toList cs || containsL "本日".toList cs then
    (some (dateOf now), 3/10)
  else
    match searchWeekPat "今週".toList cs with
    | some w => (some (next_weekday now w 0), 3/10)
    | none =>
      match searchWeekPat "来週".toList cs with
      | some w => (some (next_weekday now w 1), 3/10)
      | none =>
        match searchMonthDay cs with
        | some md => (some (date_from_month_day now md.1 md.2), 3/10)
        | none =>
          match searchSlashDate cs with
          | some md => (some (date_from_month_day now md.1 md.2), 3/10)
          | none => (none, 0)

/-- Claim C10.  For every `now`, weekday code `w` in 0..6 and nonnegative
`weeks_offset` `k`, `next_weekday now w k` falls on weekday `w`, is strictly
after today's date (even when today already is weekday `w`), and is at most
`7 * (k + 1)` days ahead of today. -/
theorem C10_next_weekday (now w k : Int) (hw0 : 0 ≤ w) (hw6 : w ≤ 6) (hk : 0 ≤ k) :
    weekdayOf (next_weekday now w k) = w ∧
    dateOf now < next_weekday now w k ∧
    next_weekday now w k ≤ dateOf now + 7 * (k + 1) := by
  unfold next_weekday weekdayOf dateOf
  dsimp only
  split <;> omega

/-- Claim C10, witness: `now` = minute 0 (1970-01-01, a Thursday, weekday
code 3), requesting weekday 3 with offset 0 yields day 7 (the next
Thursday). -/
theorem C10_next_weekday_witness :
    weekdayOf (next_weekday 0 3 0) = 3 ∧
    dateOf 0 < next_weekday 0 3 0 ∧
    next_weekday 0 3 0 ≤ dateOf 0 + 7 * (0 + 1) :=
  C10_next_weekday 0 3 0 (by decide) (by decide) (by decide)

/-! ## Time extraction (src/utils/nlp_parser.py, lines 214-266). -/

/-- Python tuple order on `(hour, minute)` pairs, used by `times.sort()`
(line 261). -/
def pairLe (p q : Int × Int) : Prop := p.1 < q.1 ∨ (p.1 = q.1 ∧ p.2 ≤ q.2)

instance : DecidableRel pairLe := fun p q =>
  inferInstanceAs (Decidable (p.1 < q.1 ∨ (p.1 = q.1 ∧ p.2 ≤ q.2)))

instance : IsTotal (Int × Int) pairLe := ⟨by
  intro a b
  simp only [pairLe]
  omega⟩

instance : IsTrans (Int × Int) pairLe := ⟨by
  intro a b c
  simp only [pairLe]
  omega⟩

/-- Python `times.sort()` on `(hour, minute)` tuples: sorting by value (both
produce the unique multiset-sorted list). -/
def sortPairs (l : List (Int × Int)) : List (Int × Int) := l.insertionSort pairLe

/-- Whether the already-scanned prefix contains 午後 or a case-insensitive
`PM` — the `'午後' in text[:match.start()] or 'PM' in
text[:match.start()].upper()` test of lines 243 and 254. -/
def pmPrefix (pre : List Char) : Bool :=
  containsL "午後".toList pre || containsL "PM".toList (pre.map Char.toUpper)

/-- Anchored match of `(\d{1,2}):(\d{2})` returning hour, minute and match
length (greedy two-digit hour tried first; the minute group takes exactly two
digits). -/
def hmAt1 : List Char → Option (Int × Int × Nat)
  | a :: ':' :: c :: d :: _ =>
    if a.isDigit && c.isDigit && d.isDigit then
      some (digitsToInt [a], digitsToInt [c, d], 4)
    else none
  | _ => none

/-- Two-digit-hour case of `(\d{1,2}):(\d{2})`, falling back to `hmAt1`. -/
def hmAt (cs : List Char) : Option (Int × Int × Nat) :=
  match cs with
  | a :: b :: ':' :: c :: d :: _ =>
    if a.isDigit && b.isDigit && c.isDigit && d.isDigit then
      some (digitsToInt [a, b], digitsToInt [c, d], 5)
    else hmAt1 cs
  | _ => hmAt1 cs

/-- Optional minute group `(?:(\d{1,2})分)?` returning minute and consumed
length (greedy: two digits tried before one, absent on failure). -/
def minuteOpt1 : List Char → Option (Int × Nat)
  | a :: '分' :: _ => if a.isDigit then some (digitsToInt [a], 2) else none
  | _ => none

/-- Two-digit case of the optional minute group, falling back to one digit. -/
def minuteOpt (r : List Char) : Option (Int × Nat) :=
  match r with
  | a :: b :: '分' :: _ =>
    if a.isDigit && b.isDigit then some (digitsToInt [a, b], 3) else minuteOpt1 r
  | _ => minuteOpt1 r

/-- Anchored match of the one-digit-hour case of
`(\d{1,2})時(?:(\d{1,2})分)?`. -/
def hjAt1 : List Char → Option (Int × Int × Nat)
  | a :: '時' :: r =>
    if a.isDigit then
      match minuteOpt r with
      | some m => some (digitsToInt [a], m.1, 2 + m.2)
      | none => some (digitsToInt [a], 0, 2)
    else none
  | _ => none

/-- Anchored match of `(\d{1,2})時(?:(\d{1,2})分)?` (missing minute group
yields minute 0, per line 240). -/
def hjAt (cs : List Char) : Option (Int × Int × Nat) :=
  match cs with
  | a :: b :: '時' :: r =>
    if a.isDigit && b.isDigit then
      match minuteOpt r with
      | some m => some (digitsToInt [a, b], m.1, 3 + m.2)
      | none => some (digitsToInt [a, b], 0, 3)
    else hjAt1 cs
  | _ => hjAt1 cs

/-- Anchored match of the named-period alternation `(朝|昼|午後|夕方|夜|夜遅く)`
(line 221) mapped through TIME_EXPRESSION_MAP (lines 14-22).  The
alternation tries 夜 before 夜遅く, so the 夜遅く branch can never be
reached; it is kept to mirror the map. -/
def periodAt (cs : List Char) : Option (Int × Int × Nat) :=
  if startsWithL "朝".toList cs then some (8, 0, 1)
  else if startsWithL "昼".toList cs then some (12, 0, 1)
  else if startsWithL "午後".toList cs then some (14, 0, 2)
  else if startsWithL "夕方".toList cs then some (17, 0, 2)
  else if startsWithL "夜".toList cs then some (19, 0, 1)
  else if startsWithL "夜遅く".toList cs then some (22, 0, 3)
  else none

/-- Worker for `re.finditer`: scan left to right, collecting non-overlapping
matches of `matcher` (which reports its match length); `pre` is the scanned
prefix, used for the AM/PM adjustment when `pmAdjust` is set.  The fuel is
the text length, consumed one unit per step, which never runs out because
every step also consumes at least one character of text. -/
def finditerGo (matcher : List Char → Option (Int × Int × Nat)) (pmAdjust : Bool) :
    Nat → List Char → List Char → List (Int × Int)
  | 0, _, _ => []
  | _ + 1, _, [] => []
  | n + 1, pre, cs@(c :: rest) =>
    match matcher cs with
    | some (h, m, len) =>
      let h2 := if pmAdjust && pmPrefix pre && decide (h < 12) then h + 12 else h
      (h2, m) :: finditerGo matcher pmAdjust n (pre ++ cs.take len) (cs.drop len)
    | none => finditerGo matcher pmAdjust n (pre ++ [c]) rest

/-- Time extraction (lines 214-266): the three patterns `HH:MM`,
`HH時(MM分)?`, named periods are tried in order; the first with any matches
contributes all its matches, sorted by value, worth +0.3.  (The per-match
branch on `'朝' in match.group()` etc. resolves statically per pattern:
digit-based groups never contain the period characters, period groups always
do.)  The AM/PM adjustment applies to the two numeric patterns only. -/
def extractTimes (text : String) : List (Int × Int) × ℚ :=
  let cs := text.toList
  let t1 := finditerGo hmAt true cs.length [] cs
  if !t1.isEmpty then (sortPairs t1, 3/10)
  else
    let t2 := finditerGo hjAt true cs.length [] cs
    if !t2.isEmpty then (sortPairs t2, 3/10)
    else
      let t3 := finditerGo periodAt false cs.length [] cs
      if !t3.isEmpty then (sortPairs t3, 3/10) else ([], 0)

/-- Anchored match of `(\d+)\s*UNIT`: a maximal digit run, optional
whitespace, then the unit literal (the unit's first character is neither a
digit nor whitespace, so greedy matching needs no backtracking). -/
def durAt (unit : List Char) (cs : List Char) : Option Int :=
  match cs with
  | c :: _ =>
    if c.isDigit then
      let p := digitRun cs
      if startsWithL unit (p.2.dropWhile Char.isWhitespace) then some (digitsToInt p.1)
      else none
    else none
  | [] => none

/-- Search for `(\d+)\s*UNIT` anywhere in the text. -/
def searchDur (unit : List Char) : List Char → Option Int
  | [] => none
  | cs@(_ :: rest) =>
    match durAt unit cs with
    | some v => some v
    | none => searchDur unit rest

/-- Duration extraction (lines 268-278): `N時間` (hours) tried before `N分`
(minutes), each worth +0.1; default 60 minutes. -/
def extractDuration (text : String) : Int × ℚ :=
  match searchDur "時間".toList text.toList with
  | some h => (h * 60, 1/10)
  | none =>
    match searchDur "分".toList text.toList with
    | some m => (m, 1/10)
    | none => (60, 0)

/-- End-or-whitespace test `(?:$|\s)` for the location patterns. -/
def endOrWs : List Char → Bool
  | [] => true
  | c :: _ => c.isWhitespace

/-- Check for `(?:で|にて|$)` ending location pattern 1. -/
def locEnd1 (rem : List Char) : Bool :=
  startsWithL "で".toList rem || startsWithL "にて".toList rem || rem.isEmpty

/-- Greedy `\s*` with backtracking for `@\s*(.+?)(?:$|\s)`: try the lazy
group after `k` whitespace characters, retrying with one fewer on failure. -/
def atPatGo (after : List Char) : Nat → Option (List Char)
  | 0 => lazyGroupBy endOrWs after
  | k + 1 =>
    match lazyGroupBy endOrWs (after.drop (k + 1)) with
    | some g => some g
    | none => atPatGo after k

/-- Search for `@\s*(.+?)(?:$|\s)` (line 314). -/
def searchAtPat : List Char → Option (List Char)
  | [] => none
  | '@' :: rest =>
    match atPatGo rest (rest.takeWhile Char.isWhitespace).length with
    | some g => some g
    | none => searchAtPat rest
  | _ :: rest => searchAtPat rest

/-- Greedy `\s+` with backtracking (at least one whitespace character) for
`in\s+(.+?)(?:$|\s)`. -/
def inPatGo (after : List Char) : Nat → Option (List Char)
  | 0 => none
  | k + 1 =>
    match lazyGroupBy endOrWs (after.drop (k + 1)) with
    | some g => some g
    | none => inPatGo after k

/-- Search for `in\s+(.+?)(?:$|\s)` (line 315). -/
def searchInPat : List Char → Option (List Char)
  | [] => none
  | cs@(_ :: rest) =>
    if startsWithL "in".toList cs then
      match inPatGo (cs.drop 2) ((cs.drop 2).takeWhile Char.isWhitespace).length with
      | some g => some g
      | none => searchInPat rest
    else searchInPat rest

/-- Location keyword fallback vocabulary (lines 326-334; the dict maps each
keyword to itself). -/
def locationKeywords : List String :=
  ["会議室", "オフィス", "本社", "支社", "カフェ", "レストラン", "ホテル"]

/-- The four location regexes of lines 311-316, tried in order (first match
wins), returning group 1. -/
def locRegexSearch (cs : List Char) : Option (List Char) :=
  (searchPreLazyBy "場所は".toList locEnd1 cs).orElse fun _ =>
  (searchLazyBy (midPostCheck ["にて", "で"] ["開催", "行います", "行う", "実施"]) cs).orElse fun _ =>
  (searchAtPat cs).orElse fun _ =>
  searchInPat cs

/-- Regex stage of the location extraction (lines 318-323): a match sets the
location to the *stripped* group — which may be empty — and adds +0.2. -/
def locStep1 (text : String) : Option String × ℚ :=
  match locRegexSearch text.toList with
  | some g => (some (String.mk (stripWS g)), 2/10)
  | none => (none, 0)

/-- Location extraction (lines 310-341).  The keyword fallback (lines
336-341) runs whenever the location slot is still falsy — also after a
regex match whose group stripped to empty — and then adds a further +0.1,
so the family's increments stack to at most +0.2 + 0.1. -/
def extractLocation (text : String) : Option String × ℚ :=
  if strFalsy (locStep1 text).1 then
    match locationKeywords.find? (fun k => containsL k.toList text.toList) with
    | some k => (some k, (locStep1 text).2 + 1/10)
    | none => locStep1 text
  else locStep1 text

/-- Combination of the extracted date and times into start/end datetimes
(lines 280-308).  With a date: the first (smallest) time is the start on that
date, the second the end on the same date, a single time gets `start +
duration`, no time defaults to 09:00.  Without a date: same on tomorrow's
date, except that with no time at all nothing is set (the branch at lines
297-308 has no `else`). -/
def combineDT (dateOpt : Option Int) (times : List (Int × Int))
    (durationMinutes : Int) (now : Int) : Option Int × Option Int :=
  match dateOpt, times with
  | some d, (h1, m1) :: rest =>
    (some (d * 1440 + h1 * 60 + m1),
     some (match rest with
       | (h2, m2) :: _ => d * 1440 + h2 * 60 + m2
       | [] => d * 1440 + h1 * 60 + m1 + durationMinutes))
  | some d, [] =>
    (some (d * 1440 + 540), some (d * 1440 + 540 + durationMinutes))
  | none, (h1, m1) :: rest =>
    ((some ((dateOf now + 1) * 1440 + h1 * 60 + m1)),
     some (match rest with
       | (h2, m2) :: _ => (dateOf now + 1) * 1440 + h2 * 60 + m2
       | [] => (dateOf now + 1) * 1440 + h1 * 60 + m1 + durationMinutes))
  | none, [] => (none, none)

/-- The top-level rule-based extractor `rule_based_parser(text, timezone)`
(src/utils/nlp_parser.py, lines 123-343), wall clock explicit.  The result
dict carries no `is_all_day` key; the confidence is the sum of the per-signal
increments accumulated from 0.0.  (For hour values above 23 — possible only
from `\d{1,2}` matches — Python's `time.replace` would raise before
returning; such inputs yield no candidate in Python and the model's value
there is not Python-observable.) -/
def rule_based_parse (text : String) (now : Int) : Schedule :=
  let title := extractTitle text
  let dt := extractDate text now
  let times := extractTimes text
  let dur := extractDuration text
  let loc := extractLocation text
  let se := combineDT dt.1 times.1 dur.1 now
  { title := some title.1,
    start_datetime := se.1,
    end_datetime := se.2,
    location := loc.1,
    description := some text,
    is_all_day := none,
    confidence := some (0 + title.2 + dt.2 + times.2 + dur.2 + loc.2) }

/-! Confidence-increment bounds for each signal family of the rule-based
extractor, used for claim C4.  The title and location families can stack
their regex and fallback increments (when the regex group strips to empty),
so each is bounded by 0.3; the title family's bound additionally uses that
every fallback keyword is a non-empty string (a keyword assignment stops the
later stages). -/

theorem titleStep1_conf (text : String) :
    (titleStep1 text).2 = 0 ∨ (titleStep1 text).2 = 2/10 := by
  unfold titleStep1
  split
  · exact Or.inr rfl
  · exact Or.inl rfl

theorem titleStep2_conf (text : String) :
    (titleStep2 text).2 = (titleStep1 text).2 ∨
      (titleStep2 text).2 = (titleStep1 text).2 + 1/10 := by
  unfold titleStep2
  split
  · split
    · exact Or.inr rfl
    · exact Or.inl rfl
  · exact Or.inl rfl

theorem titleStep2_falsy_conf (text : String)
    (hfal : strFalsy (titleStep2 text).1 = true) :
    (titleStep2 text).2 = (titleStep1 text).2 := by
  revert hfal
  unfold titleStep2
  split
  · split
    · next k hk =>
      intro hfal2
      exfalso
      have hk2 : k = "" := by simpa [strFalsy] using hfal2
      subst hk2
      exact absurd (List.mem_of_find?_eq_some hk) (by decide)
    · intro _
      rfl
  · intro _
    rfl

theorem extractTitle_conf_bound (text : String) :
    0 ≤ (extractTitle text).2 ∧ (extractTitle text).2 ≤ 3/10 := by
  have h1 := titleStep1_conf text
  unfold extractTitle
  split
  · next hfal =>
    have h2 := titleStep2_falsy_conf text hfal
    split
    · rcases h1 with h1 | h1 <;> (dsimp only; rw [h2, h1]) <;> norm_num
    · rcases h1 with h1 | h1 <;> (dsimp only; rw [h2, h1]) <;> norm_num
  · have h2 := titleStep2_conf text
    rcases h1 with h1 | h1 <;> rcases h2 with h2 | h2 <;>
      (dsimp only; rw [h2, h1]) <;> norm_num

theorem extractDate_conf_bound (text : String) (now : Int) :
    0 ≤ (extractDate text now).2 ∧ (extractDate text now).2 ≤ 3/10 := by
  unfold extractDate
  dsimp only
  split_ifs <;> repeat' split
  all_goals norm_num

theorem extractTimes_conf_bound (text : String) :
    0 ≤ (extractTimes text).2 ∧ (extractTimes text).2 ≤ 3/10 := by
  unfold extractTimes
  dsimp only
  split_ifs
  all_goals norm_num

theorem extractDuration_conf_bound (text : String) :
    0 ≤ (extractDuration text).2 ∧ (extractDuration text).2 ≤ 1/10 := by
  unfold extractDuration
  repeat' split
  all_goals norm_num

theorem locStep1_conf (text : String) :
    (locStep1 text).2 = 0 ∨ (locStep1 text).2 = 2/10 := by
  unfold locStep1
  split
  · exact Or.inr rfl
  · exact Or.inl rfl

theorem extractLocation_conf_bound (text : String) :
    0 ≤ (extractLocation text).2 ∧ (extractLocation text).2 ≤ 3/10 := by
  rcases locStep1_conf text with h | h <;>
    (unfold extractLocation
     split
     · split
       · dsimp only; rw [h]; norm_num
       · rw [h]; norm_num
     · rw [h]; norm_num)

/-- Claim C4, counterexample.  In the text
"「 」会議 明日15時から2時間 場所は で オフィス" the title regex `「(.+?)」`
and the location regex `場所は(.+?)(?:で|にて|$)` both match groups that
strip to the empty string, so their +0.2 increments are followed by the
keyword fallbacks' +0.1 (titles and locations stack to 0.3 each); with the
date (+0.3), time (+0.3) and duration (+0.1) signals the accumulated
confidence is 1.3, strictly above 1.0, so the claimed invariant
`confidence ∈ [0, 1]` fails. -/
theorem C4_counterexample :
    (1 : ℚ) <
      (rule_based_parse "「 」会議 明日15時から2時間 場所は で オフィス" 0).confidence.getD 0 := by
  have h : (rule_based_parse "「 」会議 明日15時から2時間 場所は で オフィス" 0).confidence
      = some (0 + (2/10 + 1/10) + 3/10 + 3/10 + 1/10 + (2/10 + 1/10)) := rfl
  rw [h]
  norm_num [Option.getD]

/-- Claim C4, amended.  The rule-based extractor's confidence always lies in
the closed interval [0, 1.3]: the per-family increments are bounded by 0.3
(title: regex +0.2 can stack with a fallback +0.1 when the matched group
strips to empty) + 0.3 (date) + 0.3 (time) + 0.1 (duration) + 0.3 (location:
same stacking), and the upper end 1.3 is attained (counterexample),
exceeding the claimed bound 1.  (The top-level LLM path is unaffected: it
reports the constant 0.8.) -/
theorem C4_amended (text : String) (now : Int) :
    ∃ c, (rule_based_parse text now).confidence = some c ∧ 0 ≤ c ∧ c ≤ 13/10 := by
  refine ⟨_, rfl, ?_, ?_⟩
  · obtain ⟨h1, -⟩ := extractTitle_conf_bound text
    obtain ⟨h2, -⟩ := extractDate_conf_bound text now
    obtain ⟨h3, -⟩ := extractTimes_conf_bound text
    obtain ⟨h4, -⟩ := extractDuration_conf_bound text
    obtain ⟨h5, -⟩ := extractLocation_conf_bound text
    linarith
  · obtain ⟨-, h1⟩ := extractTitle_conf_bound text
    obtain ⟨-, h2⟩ := extractDate_conf_bound text now
    obtain ⟨-, h3⟩ := extractTimes_conf_bound text
    obtain ⟨-, h4⟩ := extractDuration_conf_bound text
    obtain ⟨-, h5⟩ := extractLocation_conf_bound text
    linarith

/-- The collected time matches are sorted by value (Python `times.sort()`),
for claim C5. -/
theorem extractTimes_sorted (text : String) :
    List.Sorted pairLe (extractTimes text).1 := by
  unfold extractTimes
  dsimp only
  split
  · exact List.sorted_insertionSort pairLe _
  · split
    · exact List.sorted_insertionSort pairLe _
    · split
      · exact List.sorted_insertionSort pairLe _
      · exact List.sorted_nil

/-- Claim C5, counterexample.  On "23時から1時まで" (23:00 to 1:00) the
extractor returns start = 1:00 and end = 23:00 of the *same* day (tomorrow,
day 1): the times are sorted by numeric value, the first match in the text
(23:00) does not become the start, and the midnight-spanning range is not
pushed to the next calendar day. -/
theorem C5_counterexample :
    (rule_based_parse "23時から1時まで" 0).start_datetime = some 1500 ∧
    (rule_based_parse "23時から1時まで" 0).end_datetime = some 2820 ∧
    hourOfDay 1500 = 1 ∧ minuteOfHour 1500 = 0 ∧
    hourOfDay 2820 = 23 ∧ dateOf 2820 = dateOf 1500 := by
  exact ⟨by decide, by decide, by decide, by decide, by decide, by decide⟩

/-- Claim C5, amended.  When at least two time matches are collected (with
valid hour/minute values, as Python's `time.replace` would otherwise raise),
the time list is sorted by numeric value — not by position — the smallest
value becomes the start and the second smallest the end, and both are placed
on the same calendar day: no next-day interpretation is applied to ranges
that span midnight. -/
theorem C5_amended (text : String) (now : Int) (h1 m1 h2 m2 : Int)
    (rest : List (Int × Int))
    (ht : (extractTimes text).1 = (h1, m1) :: (h2, m2) :: rest)
    (hh1 : 0 ≤ h1) (hh1b : h1 < 24) (hm1 : 0 ≤ m1) (hm1b : m1 < 60)
    (hh2 : 0 ≤ h2) (hh2b : h2 < 24) (hm2 : 0 ≤ m2) (hm2b : m2 < 60) :
    List.Sorted pairLe (extractTimes text).1 ∧
    ∃ s e, (rule_based_parse text now).start_datetime = some s ∧
      (rule_based_parse text now).end_datetime = some e ∧
      hourOfDay s = h1 ∧ minuteOfHour s = m1 ∧
      hourOfDay e = h2 ∧ minuteOfHour e = m2 ∧
      dateOf e = dateOf s := by
  refine ⟨extractTimes_sorted text, ?_⟩
  have hs : (rule_based_parse text now).start_datetime =
      (combineDT (extractDate text now).1 (extractTimes text).1
        (extractDuration text).1 now).1 := rfl
  have he : (rule_based_parse text now).end_datetime =
      (combineDT (extractDate text now).1 (extractTimes text).1
        (extractDuration text).1 now).2 := rfl
  rw [hs, he, ht]
  rcases hd : (extractDate text now).1 with _ | d
  · refine ⟨_, _, rfl, rfl, ?_, ?_, ?_, ?_, ?_⟩ <;>
      simp only [hourOfDay, minuteOfHour, dateOf] <;> omega
  · refine ⟨_, _, rfl, rfl, ?_, ?_, ?_, ?_, ?_⟩ <;>
      simp only [hourOfDay, minuteOfHour, dateOf] <;> omega

/-- Claim C5, witness: the amended theorem applied to "23時から1時まで"
(collected times `[(1,0), (23,0)]`). -/
theorem C5_amended_witness :
    List.Sorted pairLe (extractTimes "23時から1時まで").1 ∧
    ∃ s e, (rule_based_parse "23時から1時まで" 0).start_datetime = some s ∧
      (rule_based_parse "23時から1時まで" 0).end_datetime = some e ∧
      hourOfDay s = 1 ∧ minuteOfHour s = 0 ∧
      hourOfDay e = 23 ∧ minuteOfHour e = 0 ∧
      dateOf e = dateOf s :=
  C5_amended "23時から1時まで" 0 1 0 23 0 [] (by decide) (by decide) (by decide)
    (by decide) (by decide) (by decide) (by decide) (by decide) (by decide)

/-- Claim C6, code evaluation at the failing input.  The text "了解です"
matches no date pattern and no time pattern, and the no-date branch of
`rule_based_parser` (lines 297-308) sets start/end only when a time was
found, so the returned candidate has `start_datetime = None` and
`end_datetime = None` — contradicting the claim that every input yields a
candidate with a present start defaulting to tomorrow. -/
theorem C6_counterexample :
    (rule_based_parse "了解です" 0).start_datetime = none ∧
    (rule_based_parse "了解です" 0).end_datetime = none ∧
    (rule_based_parse "了解です" 0).title = some "予定" := by
  exact ⟨by decide, by decide, by decide⟩

/-- Claim C6, amended.  The rule-based extractor returns a candidate with a
present start if and only if a date pattern or a time pattern matched the
text: with a date but no time the start defaults to 09:00 of that date, and
with a time but no date the date defaults to tomorrow, but when *neither*
matches, `start_datetime` and `end_datetime` remain `None` (the tomorrow
default of the no-date branch is only applied when a time was found). -/
theorem C6_amended (text : String) (now : Int) :
    ((rule_based_parse text now).start_datetime ≠ none ↔
      ((extractDate text now).1 ≠ none ∨ (extractTimes text).1 ≠ [])) ∧
    ((rule_based_parse text now).end_datetime ≠ none ↔
      ((extractDate text now).1 ≠ none ∨ (extractTimes text).1 ≠ [])) := by
  have hs : (rule_based_parse text now).start_datetime =
      (combineDT (extractDate text now).1 (extractTimes text).1
        (extractDuration text).1 now).1 := rfl
  have he : (rule_based_parse text now).end_datetime =
      (combineDT (extractDate text now).1 (extractTimes text).1
        (extractDuration text).1 now).2 := rfl
  rw [hs, he]
  rcases hd : (extractDate text now).1 with _ | d <;>
    rcases htl : (extractTimes text).1 with _ | ⟨⟨th, tm⟩, trest⟩ <;>
      simp [combineDT]

/-! ## Availability check and confirmation handling
(src/utils/calendar_handler.py `check_schedule_conflicts`, lines 226-271,
and src/handlers/slack_handler.py `process_interactive_action` /
`register_calendar_event`).  The Google Calendar service is an external
collaborator: its response — or its failure, whether an auth error from
`get_calendar_service` or an exception from the API call, both of which the
code converts to an error string — is the explicit input `svc`. -/

/-- Python's untyped first return slot of `check_schedule_conflicts`: either
the boolean `has_conflict` or an error string. -/
inductive ConflictFlag where
  | ok (hasConflict : Bool)
  | err (message : String)
deriving DecidableEq

/-- An event item returned by the calendar API's `events().list` (the
`start`/`end` objects carry either a timed `dateTime` or an all-day `date`
string). -/
structure RawGEvent where
  summary : Option String
  startDateTime : Option String
  startDate : Option String
  endDateTime : Option String
  endDate : Option String
  location : Option String
  htmlLink : Option String
deriving DecidableEq

/-- The conflict projection built at lines 257-267 of calendar_handler.py. -/
structure ConflictRecord where
  summary : String
  startRaw : Option String
  endRaw : Option String
  location : String
  html_link : String
deriving DecidableEq

/-- The availability check `check_schedule_conflicts(user_id, start, end)`
(src/utils/calendar_handler.py, lines 226-271): a service error or API
exception returns the error string in place of the boolean; an empty event
list yields `(False, [])`; any returned events yield `(True, conflicts)`. -/
def check_schedule_conflicts (svc : Except String (List RawGEvent)) :
    ConflictFlag × List ConflictRecord :=
  match svc with
  | .error e => (.err e, [])
  | .ok events =>
    if events.isEmpty then (.ok false, [])
    else
      (.ok true, events.map (fun ev =>
        { summary := ev.summary.getD "（無題の予定）",
          startRaw := match ev.startDateTime with
            | some s => some s
            | none => ev.startDate,
          endRaw := match ev.endDateTime with
            | some s => some s
            | none => ev.endDate,
          location := ev.location.getD "",
          html_link := ev.htmlLink.getD "" }))

/-- Observable outcome of the `confirm_schedule` branch of the interactive
handler. -/
inductive ConfirmOutcome where
  | notFound
  | conflictPrompt (conflicts : List ConflictRecord)
  | registerAttempt (info : Schedule)
deriving DecidableEq

/-- Python `schedule_cache.get(cache_key)` on the module-level dict, modeled
as lookup in an association list. -/
def cacheGet (cache : List (String × Schedule)) (k : String) : Option Schedule :=
  match cache with
  | [] => none
  | kv :: rest => if kv.1 == k then some kv.2 else cacheGet rest k

/-- The `confirm_schedule` branch of `process_interactive_action`
(src/handlers/slack_handler.py, lines 292-395).  A cache miss reports "not
found"; otherwise the first slot of `check_schedule_conflicts` is tested
with `isinstance(has_conflict, bool) and has_conflict` (line 312) — only a
boolean `True` leads to the conflict prompt, and every other value,
including an error string, falls through to `register_calendar_event`
(line 395).  The prompt branch's alternative-slot machinery (lines 319-391)
does not affect which branch is taken and is elided from the outcome. -/
def process_confirm_schedule (cache : List (String × Schedule))
    (cacheKey : String) (svc : Except String (List RawGEvent)) : ConfirmOutcome :=
  match cacheGet cache cacheKey with
  | none => .notFound
  | some schedule_info =>
    match check_schedule_conflicts svc with
    | (.ok true, conflicts) => .conflictPrompt conflicts
    | (.ok false, _) => .registerAttempt schedule_info
    | (.err _, _) => .registerAttempt schedule_info

/-- A concrete cached candidate for the C3 counterexample. -/
def exCachedSchedule : Schedule :=
  { title := some "営業会議", start_datetime := some 600,
    end_datetime := some 660, location := some "会議室",
    description := some "", is_all_day := none, confidence := some 1 }

/-- Claim C3, counterexample.  When `check_schedule_conflicts` cannot reach
the calendar (here: an auth error string), the confirmation handler does
*not* report that availability could not be verified — it proceeds to
attempt registration of the cached candidate, exactly as it does for a
clean "no conflict" result. -/
theorem C3_counterexample :
    (check_schedule_conflicts (Except.error "トークンの更新に失敗しました")).1 =
      ConflictFlag.err "トークンの更新に失敗しました" ∧
    process_confirm_schedule [("U1_C1", exCachedSchedule)] "U1_C1"
        (Except.error "トークンの更新に失敗しました") =
      ConfirmOutcome.registerAttempt exCachedSchedule ∧
    process_confirm_schedule [("U1_C1", exCachedSchedule)] "U1_C1"
        (Except.ok []) =
      ConfirmOutcome.registerAttempt exCachedSchedule := by
  exact ⟨by decide, by decide, by decide⟩

/-- Claim C3, amended.  `check_schedule_conflicts` does return an error
string in place of the boolean when the calendar collaborator cannot be
reached, but the confirmation handler's `isinstance(has_conflict, bool) and
has_conflict` test then treats this exactly like "no conflict": for every
cached candidate it falls through to `register_calendar_event`, and no
"could not verify availability" report exists. -/
theorem C3_amended (cache : List (String × Schedule)) (cacheKey : String)
    (info : Schedule) (e : String)
    (h : cacheGet cache cacheKey = some info) :
    process_confirm_schedule cache cacheKey (Except.error e) =
      ConfirmOutcome.registerAttempt info ∧
    process_confirm_schedule cache cacheKey (Except.error e) =
      process_confirm_schedule cache cacheKey (Except.ok []) := by
  unfold process_confirm_schedule check_schedule_conflicts
  rw [h]
  exact ⟨rfl, rfl⟩

/-- Claim C3, witness: the amended theorem applied to a singleton cache. -/
theorem C3_amended_witness :
    process_confirm_schedule [("U1_C1", exCachedSchedule)] "U1_C1"
        (Except.error "timeout") =
      ConfirmOutcome.registerAttempt exCachedSchedule ∧
    process_confirm_schedule [("U1_C1", exCachedSchedule)] "U1_C1"
        (Except.error "timeout") =
      process_confirm_schedule [("U1_C1", exCachedSchedule)] "U1_C1"
        (Except.ok []) :=
  C3_amended [("U1_C1", exCachedSchedule)] "U1_C1" exCachedSchedule "timeout"
    (by decide)

/-! ## Cache handling of the confirmation flow (claim C8). -/

/-- Removal of a cache key (`del schedule_cache[k]` guarded by `k in
schedule_cache`): dictionary deletion on an association list. -/
def eraseKey (cache : List (String × Schedule)) (k : String) :
    List (String × Schedule) :=
  cache.filter (fun kv => !(kv.1 == k))

/-- The cache clearing performed on successful registration (slack_handler.py
lines 603-608) and on cancel (lines 433-438): both the main key and its
`_alternative` companion are removed. -/
def clearScheduleCache (cache : List (String × Schedule)) (cacheKey : String) :
    List (String × Schedule) :=
  eraseKey (eraseKey cache cacheKey) (cacheKey ++ "_alternative")

/-- The registration step `register_calendar_event` of the confirmation
handler (src/handlers/slack_handler.py, lines 538-622).  `createResult` is
the `(success, result)` pair from `create_calendar_event`; the returned
string is the user-visible message (on failure, line 614's text carrying the
underlying error) and the returned list is the cache after the call: cleared
on success, untouched on failure. -/
def register_calendar_event (createResult : Bool × String)
    (cache : List (String × Schedule)) (cacheKey : String) :
    String × List (String × Schedule) :=
  match createResult with
  | (true, _) => ("✅ 予定を登録しました", clearScheduleCache cache cacheKey)
  | (false, result) => ("❌ 予定の登録に失敗しました: " ++ result, cache)

/-- The `cancel_schedule` branch of `process_interactive_action`
(src/handlers/slack_handler.py, lines 425-438). -/
def cancel_schedule_action (cache : List (String × Schedule))
    (cacheKey : String) : String × List (String × Schedule) :=
  ("予定の登録をキャンセルしました。", clearScheduleCache cache cacheKey)

theorem eraseKey_cacheGet_self (c : List (String × Schedule)) (k : String) :
    cacheGet (eraseKey c k) k = none := by
  induction c with
  | nil => rfl
  | cons kv t ih =>
    by_cases heq : kv.1 = k
    · have hbk : (kv.1 == k) = true := beq_iff_eq.mpr heq
      simp only [eraseKey, List.filter_cons, hbk, Bool.not_true, if_neg] at ih ⊢
      simpa [eraseKey] using ih
    · have hbk : (kv.1 == k) = false := beq_eq_false_iff_ne.mpr heq
      simp only [eraseKey, List.filter_cons, hbk, Bool.not_false, if_pos] at ih ⊢
      rw [cacheGet, if_neg (by rw [hbk]; exact Bool.false_ne_true)]
      exact ih

theorem eraseKey_cacheGet_other (c : List (String × Schedule)) (k k2 : String)
    (h : (k2 == k) = false) : cacheGet (eraseKey c k) k2 = cacheGet c k2 := by
  induction c with
  | nil => rfl
  | cons kv t ih =>
    by_cases heq : kv.1 = k
    · have hbk : (kv.1 == k) = true := beq_iff_eq.mpr heq
      have hbk2 : (kv.1 == k2) = false := by
        rw [beq_eq_false_iff_ne]
        intro hh
        rw [beq_eq_false_iff_ne] at h
        exact h (hh.symm.trans heq)
      simp only [eraseKey, List.filter_cons, hbk, Bool.not_true, if_neg] at ih ⊢
      rw [show cacheGet (kv :: t) k2 = cacheGet t k2 by
        rw [cacheGet, if_neg (by rw [hbk2]; exact Bool.false_ne_true)]]
      simpa [eraseKey] using ih
    · have hbk : (kv.1 == k) = false := beq_eq_false_iff_ne.mpr heq
      simp only [eraseKey, List.filter_cons, hbk, Bool.not_false, if_pos] at ih ⊢
      by_cases hq : kv.1 = k2
      · have hbq : (kv.1 == k2) = true := beq_iff_eq.mpr hq
        rw [cacheGet, if_pos hbq, cacheGet, if_pos hbq]
      · have hbq : (kv.1 == k2) = false := beq_eq_false_iff_ne.mpr hq
        rw [cacheGet, if_neg (by rw [hbq]; exact Bool.false_ne_true),
          cacheGet, if_neg (by rw [hbq]; exact Bool.false_ne_true)]
        simpa [eraseKey] using ih

/-- Claim C8.  When calendar registration fails, the confirmation handler's
message carries the underlying error text and the cache is left completely
unchanged (so the user can retry confirm without re-extracting); on
successful registration and on cancel, and only then, the cache is cleared
of both the main `(user, channel)` key and its `_alternative` companion. -/
theorem C8_registration_cache (msg link : String)
    (cache : List (String × Schedule)) (cacheKey : String) :
    (register_calendar_event (false, msg) cache cacheKey).2 = cache ∧
    (register_calendar_event (false, msg) cache cacheKey).1 =
      "❌ 予定の登録に失敗しました: " ++ msg ∧
    (register_calendar_event (true, link) cache cacheKey).2 =
      clearScheduleCache cache cacheKey ∧
    (cancel_schedule_action cache cacheKey).2 =
      clearScheduleCache cache cacheKey ∧
    cacheGet (clearScheduleCache cache cacheKey) cacheKey = none ∧
    cacheGet (clearScheduleCache cache cacheKey) (cacheKey ++ "_alternative") =
      none := by
  refine ⟨rfl, rfl, rfl, rfl, ?_, eraseKey_cacheGet_self _ _⟩
  unfold clearScheduleCache
  rw [eraseKey_cacheGet_other _ _ _ (by
    rw [beq_eq_false_iff_ne]
    intro heq
    have hlen := congrArg String.length heq
    rw [String.length_append] at hlen
    have h12 : ("_alternative" : String).length = 12 := rfl
    omega)]
  exact eraseKey_cacheGet_self _ _

/-! ## Next-slot search: `find_next_available_time`
(src/utils/calendar_handler.py, lines 273-351).  The Google events service is
the explicit input `query day_start day_end`; the `while current_day <
end_search` loop is modeled by `findDayScan` with a fuel parameter that only
bounds the iteration count — `find_next_available_time` supplies `max_days +
2` units, and the fuel-stability half of the C7 theorem shows the loop never
consumes them all, so the model agrees with the unbounded loop.  Besides the
Python return value (first component), the model also returns the list of
`day_start` cursors for which the events API was actually called (second
component), which makes the "days inspected" count of the claim statable.
The pre-loop `get_calendar_service` failure path (return `None` with no API
call) is the trivial case and is not modeled. -/

/-- An event as consumed by the slot search: all-day events carry a `date`
key (line 310) and block the whole day; timed events contribute their
parsed start/end minutes (lines 315-328, `parse_datetime` modeled as the
identity on the minute encoding). -/
structure GCalEvent where
  isAllDay : Bool
  startMin : Int
  endMin : Int
deriving DecidableEq

/-- Comparison used by `parsed_events.sort(key=lambda x: x[0])` (line 330):
by start only. -/
def fstLe (p q : Int × Int) : Prop := p.1 ≤ q.1

instance : DecidableRel fstLe := fun p q => inferInstanceAs (Decidable (p.1 ≤ q.1))

instance : IsTotal (Int × Int) fstLe := ⟨by intro a b; simp only [fstLe]; omega⟩

instance : IsTrans (Int × Int) fstLe := ⟨by intro a b c; simp only [fstLe]; omega⟩

/-- Sorting of the parsed `(start, end)` pairs by start time. -/
def sortByStart (l : List (Int × Int)) : List (Int × Int) := l.insertionSort fstLe

/-- The gap-scanning for-loop of lines 335-340: return the cursor as soon as
a large-enough gap precedes the next event, else advance the cursor past the
event's end. -/
def gapScanC7 (duration : Int) : Int → List (Int × Int) → Option Int
  | _, [] => none
  | cur, (es, ee) :: rest =>
    if cur < es ∧ duration ≤ es - cur then some cur
    else gapScanC7 duration (max cur ee) rest

/-- The cursor advance `(current_day + timedelta(days=1)).replace(hour=9,
minute=0)` (lines 296, 312, 321, 345). -/
def nextDayCursor (t : Int) : Int := (dateOf t + 1) * 1440 + 540

/-- One-day-at-a-time walk of the `while current_day < end_search` loop
(lines 291-347).  First component: the returned slot.  Second component:
the `day_start` values actually submitted to the events API (the
`hour >= 18` skip at lines 295-297 advances without querying). -/
def findDayScan (query : Int → Int → List GCalEvent) (duration : Int)
    (end_search : Int) : Nat → Int → Option Int × List Int
  | 0, _ => (none, [])
  | fuel + 1, current_day =>
    if end_search ≤ current_day then (none, [])
    else
      let day_start := current_day
      let day_end := dateOf current_day * 1440 + 1080
      if 18 ≤ hourOfDay day_start then
        findDayScan query duration end_search fuel (nextDayCursor current_day)
      else
        let events := query day_start day_end
        if events.any (fun e => e.isAllDay) then
          let r := findDayScan query duration end_search fuel (nextDayCursor current_day)
          (r.1, day_start :: r.2)
        else
          let regular := events.filter (fun e => !e.isAllDay)
          if regular.isEmpty then
            if duration ≤ day_end - day_start then (some day_start, [day_start])
            else
              let r := findDayScan query duration end_search fuel (nextDayCursor current_day)
              (r.1, day_start :: r.2)
          else
            let parsed := sortByStart (regular.map (fun e => (e.startMin, e.endMin)))
            if (match parsed.head? with
                | some p => decide (duration ≤ p.1 - day_start)
                | none => false) then (some day_start, [day_start])
            else
              match gapScanC7 duration day_start parsed with
              | some t => (some t, [day_start])
              | none =>
                match parsed.getLast? with
                | some p =>
                  if duration ≤ day_end - p.2 then (some p.2, [day_start])
                  else
                    let r := findDayScan query duration end_search fuel (nextDayCursor current_day)
                    (r.1, day_start :: r.2)
                | none =>
                  let r := findDayScan query duration end_search fuel (nextDayCursor current_day)
                  (r.1, day_start :: r.2)

/-- Initial cursor (lines 285-287): today at 09:00, or `start_time` itself
if that is already later. -/
def initCursor (start_time : Int) : Int :=
  if dateOf start_time * 1440 + 540 < start_time then start_time
  else dateOf start_time * 1440 + 540

/-- The slot search `find_next_available_time(user_id, start_time,
duration_minutes, max_days=7)` (src/utils/calendar_handler.py, lines
273-351), with `end_search = start_time + max_days days` (line 288). -/
def find_next_available_time (query : Int → Int → List GCalEvent)
    (start_time duration : Int) (max_days : Nat) : Option Int × List Int :=
  findDayScan query duration (start_time + (max_days : Int) * 1440)
    (max_days + 2) (initCursor start_time)

theorem findDayScan_stop (query : Int → Int → List GCalEvent)
    (duration end_search : Int) (fuel : Nat) (cur : Int)
    (h : end_search ≤ cur) :
    findDayScan query duration end_search fuel cur = (none, []) := by
  cases fuel with
  | zero => rfl
  | succ n =>
    unfold findDayScan
    rw [if_pos h]

theorem dateOf_nextDayCursor (t : Int) :
    dateOf (nextDayCursor t) = dateOf t + 1 := by
  unfold nextDayCursor dateOf
  omega

/-- The walk queries at most one new calendar day per date between the
cursor's and the horizon's. -/
theorem findDayScan_queries_bound (query : Int → Int → List GCalEvent)
    (duration end_search : Int) :
    ∀ fuel : Nat, ∀ cur : Int,
      (findDayScan query duration end_search fuel cur).2.length ≤
        (dateOf end_search - dateOf cur).toNat + 1 := by
  intro fuel
  induction fuel with
  | zero =>
    intro cur
    simp [findDayScan]
  | succ n ih =>
    intro cur
    by_cases hstop : end_search ≤ cur
    · rw [findDayScan_stop query duration end_search _ cur hstop]
      simp
    · have hrec : (findDayScan query duration end_search n (nextDayCursor cur)).2.length ≤
          (dateOf end_search - dateOf cur).toNat := by
        by_cases hnext : end_search ≤ nextDayCursor cur
        · rw [findDayScan_stop query duration end_search n _ hnext]
          simp
        · have h2 : dateOf (nextDayCursor cur) ≤ dateOf end_search := by
            unfold nextDayCursor dateOf at hnext ⊢
            omega
          have h3 := ih (nextDayCursor cur)
          rw [dateOf_nextDayCursor] at h3 h2
          omega
      unfold findDayScan
      rw [if_neg hstop]
      dsimp only
      repeat' split
      all_goals try dsimp only
      all_goals try simp only [List.length_cons, List.length_nil]
      all_goals omega

/-- Supplying more fuel than the day count between cursor and horizon never
changes the result: the while loop terminates within that many iterations. -/
theorem findDayScan_fuel_stable (query : Int → Int → List GCalEvent)
    (duration end_search : Int) :
    ∀ fuel : Nat, ∀ extra : Nat, ∀ cur : Int,
      (dateOf end_search - dateOf cur).toNat < fuel →
      findDayScan query duration end_search fuel cur =
        findDayScan query duration end_search (fuel + extra) cur := by
  intro fuel
  induction fuel with
  | zero =>
    intro extra cur h
    exact absurd h (Nat.not_lt_zero _)
  | succ n ih =>
    intro extra cur h
    have hsh : n + 1 + extra = (n + extra) + 1 := by omega
    rw [hsh]
    by_cases hstop : end_search ≤ cur
    · rw [findDayScan_stop query duration end_search _ cur hstop,
        findDayScan_stop query duration end_search _ cur hstop]
    · by_cases hnext : end_search ≤ nextDayCursor cur
      · have hr1 := findDayScan_stop query duration end_search n _ hnext
        have hr2 := findDayScan_stop query duration end_search (n + extra) _ hnext
        unfold findDayScan
        rw [if_neg hstop, if_neg hstop]
        dsimp only
        rw [hr1, hr2]
      · have h2 : (dateOf end_search - dateOf (nextDayCursor cur)).toNat < n := by
          have hmono : dateOf (nextDayCursor cur) ≤ dateOf end_search := by
            unfold nextDayCursor dateOf at hnext ⊢
            omega
          rw [dateOf_nextDayCursor] at hmono ⊢
          omega
        have hih := ih extra (nextDayCursor cur) h2
        unfold findDayScan
        rw [if_neg hstop, if_neg hstop]
        dsimp only
        rw [hih]

/-- A calendar in which every day is fully booked 09:00-18:00 by one timed
event (for the C7 counterexample). -/
def exQuery : Int → Int → List GCalEvent :=
  fun a _ =>
    [{ isAllDay := false, startMin := dateOf a * 1440 + 540,
       endMin := dateOf a * 1440 + 1080 }]

/-- Claim C7, counterexample.  With `desired_start` at 15:00 of day 0
(minute 900), `duration` 60 and `max_days` 7 against a fully booked
calendar, the walk queries the events API on 8 distinct calendar days (days
0 through 7) before returning `None`: one more than the claimed `max_days`
bound, because `end_search = desired_start + 7 days` falls at 15:00 while
the cursor reaches day 7 at 09:00, still inside the horizon. -/
theorem C7_counterexample :
    (find_next_available_time exQuery 900 60 7).1 = none ∧
    (find_next_available_time exQuery 900 60 7).2.length = 8 ∧
    (find_next_available_time exQuery 900 60 7).2.map dateOf =
      [0, 1, 2, 3, 4, 5, 6, 7] := by
  exact ⟨by decide, by decide, by decide⟩

/-- Claim C7, amended.  `find_next_available_time` terminates on every
input: each loop iteration either returns a slot or strictly advances the
cursor to the next calendar day at 09:00, and the loop stops once the cursor
reaches `desired_start + max_days` days, returning `None` when no sufficient
gap was found.  Its day-by-day walk inspects at most `max_days + 1` calendar
days — one more than the claimed `max_days`, reached whenever
`desired_start` lies after 09:00 (counterexample) — and the fuel-stability
equation certifies that `max_days + 2` loop iterations are never exhausted,
i.e. the while loop cannot run indefinitely. -/
theorem C7_amended (query : Int → Int → List GCalEvent)
    (start_time duration : Int) (max_days extra : Nat) :
    (find_next_available_time query start_time duration max_days).2.length ≤
      max_days + 1 ∧
    findDayScan query duration (start_time + (max_days : Int) * 1440)
        (max_days + 2 + extra) (initCursor start_time) =
      find_next_available_time query start_time duration max_days := by
  have hD : (dateOf (start_time + (max_days : Int) * 1440) -
      dateOf (initCursor start_time)).toNat = max_days := by
    unfold initCursor dateOf
    split <;> omega
  constructor
  · have hb := findDayScan_queries_bound query duration
      (start_time + (max_days : Int) * 1440) (max_days + 2) (initCursor start_time)
    rw [hD] at hb
    exact hb
  · exact (findDayScan_fuel_stable query duration
      (start_time + (max_days : Int) * 1440) (max_days + 2) extra
      (initCursor start_time) (by rw [hD]; omega)).symm

end SmaPla
